import Mathlib

/-!
# Sales dashboard: the backend queries and the two front ends

A shallow embedding of `Backend/index.js`, of the component `Dashboard` and of
`src/App.js`.  The table `salesData` is a list of rows in store order; each SQL
statement of the backend is a function on that list.  The schema of `salesData`
is not part of the sources, so the row type follows the data model of the
specification: every column is present, except that `dateOfSale` may be missing
(SQL `NULL`).  The handlers of the components are functions on their state; a
request is an input, given by its outcome.

Prices are exact decimals: binary rounding of SQLite's `REAL` and of JavaScript
numbers is not modelled.
-/

namespace Backend

/-! ## Decimal numbers -/

/-- A decimal number `mantissa / 10 ^ scale`. -/
structure Decimal where
  mantissa : Int
  scale : Nat
  deriving DecidableEq, Repr

namespace Decimal

/-- An integer literal of the SQL text, as a decimal. -/
def ofInt (n : Int) : Decimal := ⟨n, 0⟩

/-- Comparison of the values: `a ≤ b`, after bringing both to a common denominator. -/
def le (a b : Decimal) : Bool :=
  decide (a.mantissa * 10 ^ b.scale ≤ b.mantissa * 10 ^ a.scale)

/-- Sum of two decimals, on the product of the denominators. -/
def add (a b : Decimal) : Decimal :=
  ⟨a.mantissa * 10 ^ b.scale + b.mantissa * 10 ^ a.scale, a.scale + b.scale⟩

/-- The rational value of a decimal. -/
def toRat (a : Decimal) : ℚ := (a.mantissa : ℚ) / (10 : ℚ) ^ a.scale

/-- A decimal with no fractional part. -/
def isInteger (a : Decimal) : Bool := decide (a.mantissa % 10 ^ a.scale = 0)

/-- The digits of a natural number, most significant first. -/
def natText (n : Nat) : String := String.mk (Nat.toDigits 10 n)

/-- A decimal written as text: the integer part, then, when `scale > 0`, a point
and `scale` fractional digits. -/
def toText (a : Decimal) : String :=
  let sign := if a.mantissa < 0 then "-" else ""
  let m := a.mantissa.natAbs
  let whole := natText (m / 10 ^ a.scale)
  if a.scale = 0 then sign ++ whole
  else
    let frac := Nat.toDigits 10 (m % 10 ^ a.scale)
    sign ++ whole ++ "." ++ String.mk (List.replicate (a.scale - frac.length) '0' ++ frac)

end Decimal

/-! ## Rows of `salesData` -/

/-- A calendar date, as SQLite reads the stored `dateOfSale` (its date functions
work in UTC); `month` is the month number 1..12. -/
structure SaleDate where
  year : Nat
  month : Nat
  day : Nat
  month_valid : 1 ≤ month ∧ month ≤ 12
  deriving DecidableEq

/-- Modelled from the spec: the schema of `salesData`, whose `CREATE TABLE` is not
in the sources.  One row, with the fields of `TransactionRecord` of the data
model; `dateOfSale` alone may be missing, as the data model provides for. -/
structure Record where
  id : Nat
  title : String
  price : Decimal
  description : String
  category : String
  image : String
  sold : Bool
  dateOfSale : Option SaleDate
  deriving DecidableEq

/-- The table, in store order. -/
abbrev Store := List Record

/-! ## SQL expressions used by the queries -/

/-- Two decimal digits of a number below 100, as `strftime` prints a month. -/
def twoDigits (n : Nat) : String :=
  String.mk [Char.ofNat (48 + n / 10), Char.ofNat (48 + n % 10)]

/-- The call `strftime('%m', dateOfSale)`: the month as two digits, `NULL` on `NULL`. -/
def strftimeMonth : Option SaleDate → Option String
  | none => none
  | some d => some (twoDigits d.month)

/-- The value of a decimal digit character. -/
def digitValue (c : Char) : Option Nat :=
  if '0' ≤ c ∧ c ≤ '9' then some (c.toNat - 48) else none

/-- The number denoted by the longest prefix of digits of a text. -/
def leadingDigits : List Char → Nat → Nat
  | [], acc => acc
  | c :: cs, acc =>
    match digitValue c with
    | some d => leadingDigits cs (acc * 10 + d)
    | none => acc

/-- The cast `CAST(t AS INTEGER)` on unsigned text: the leading digits, `NULL` on `NULL`. -/
def castInteger : Option String → Option Int
  | none => none
  | some t => some (leadingDigits t.data 0 : Nat)

/-- SQL `=` on integers: `NULL` as soon as an operand is `NULL`. -/
def sqlEq : Option Int → Option Int → Option Bool
  | some a, some b => some (decide (a = b))
  | _, _ => none

/-- SQL `AND` in three-valued logic. -/
def sqlAnd : Option Bool → Option Bool → Option Bool
  | some false, _ => some false
  | _, some false => some false
  | some true, some true => some true
  | _, _ => none

/-- A `WHERE` clause keeps a row exactly when its condition is true (not false,
not `NULL`). -/
def sqlTrue (c : Option Bool) : Bool := c == some true

/-- The month condition `CAST(strftime('%m', dateOfSale) AS INT) = month`
shared by every query. -/
def monthCondition (month : Int) (r : Record) : Option Bool :=
  sqlEq (castInteger (strftimeMonth r.dateOfSale)) (some month)

/-- Lower case of the 26 ASCII letters, the only folding `LIKE` does. -/
def asciiLower (c : Char) : Char :=
  if 'A' ≤ c ∧ c ≤ 'Z' then Char.ofNat (c.toNat + 32) else c

/-- SQLite's `LIKE`: in the pattern `%` stands for any run of characters, `_`
for any one character, and every other character for itself up to ASCII case.
The first argument is the pattern, the second the text. -/
def likeMatch : List Char → List Char → Bool
  | [], t => t.isEmpty
  | p :: ps, t =>
    if p = '%' then t.tails.any (fun u => likeMatch ps u)
    else
      match t with
      | [] => false
      | c :: cs => (p = '_' || asciiLower p == asciiLower c) && likeMatch ps cs

/-- The operator `text LIKE "%search_q%"`. -/
def likeContains (search_q : String) (text : String) : Bool :=
  likeMatch ('%' :: (search_q.data ++ ['%'])) text.data

/-! ## `/sales` -/

/-- The search condition of `/sales`:
`title LIKE "%q%" OR price LIKE "%q%" OR description LIKE "%q%"`.
`priceText` is the text SQLite gives the stored price; it depends on the declared
column type, which is in the schema and not in the sources.  The search text is
the middle of the pattern: a text holding a double quote would end the SQL string
literal and give another statement, which is outside this embedding. -/
def searchCondition (priceText : Decimal → String) (search_q : String) (r : Record) : Bool :=
  likeContains search_q r.title || likeContains search_q (priceText r.price)
    || likeContains search_q r.description

/-- The `WHERE` clause of `/sales`. -/
def salesWhere (priceText : Decimal → String) (month : Int) (search_q : String)
    (r : Record) : Bool :=
  sqlTrue (sqlAnd (monthCondition month r) (some (searchCondition priceText search_q r)))

/-- The offset `(page - 1) * 10`; SQLite reads a negative `OFFSET` as 0. -/
def salesOffset (page : Int) : Nat := ((page - 1) * 10).toNat

/-- The query of `/sales`: rows kept by the `WHERE` clause, in store order,
`LIMIT 10 OFFSET (page - 1) * 10`. -/
def sales (priceText : Decimal → String) (db : Store) (month : Int) (search_q : String)
    (page : Int) : List Record :=
  ((db.filter (salesWhere priceText month search_q)).drop (salesOffset page)).take 10

/-! ## Aggregates -/

/-- The rows that satisfy the month condition, in store order. -/
def monthRows (db : Store) (month : Int) : List Record :=
  db.filter (fun r => sqlTrue (monthCondition month r))

/-- The expression `CASE WHEN c THEN v END`: `NULL` when `c` does not hold. -/
def caseWhen {α : Type} (c : Bool) (v : α) : Option α := if c then some v else none

/-- The aggregate `COUNT(expr)`: the number of rows on which `expr` is not `NULL`. -/
def sqlCount {α : Type} (values : List (Option α)) : Nat :=
  (values.filter Option.isSome).length

/-- The aggregate `SUM(expr)`: the sum of the values that are not `NULL`, and
`NULL` when there is none. -/
def sqlSum (values : List (Option Decimal)) : Option Decimal :=
  match values.reduceOption with
  | [] => none
  | v :: vs => some (vs.foldl Decimal.add v)

/-! ## `/statistics` -/

/-- The row `{sales, soldItems, unSoldItems}` returned by `/statistics`. -/
structure Statistics where
  sales : Option Decimal
  soldItems : Nat
  unSoldItems : Nat
  deriving DecidableEq

/-- The query of `/statistics` (its first statement, the one `db.get` runs):
`SUM` and `COUNT` of `CASE WHEN sold=True THEN price END`, and `COUNT` of
`CASE WHEN sold<>True THEN price END`, over the rows of the month. -/
def statistics (db : Store) (month : Int) : Statistics :=
  let rows := monthRows db month
  { sales := sqlSum (rows.map (fun r => caseWhen (r.sold == true) r.price))
    soldItems := sqlCount (rows.map (fun r => caseWhen (r.sold == true) r.price))
    unSoldItems := sqlCount (rows.map (fun r => caseWhen (r.sold != true) r.price)) }

/-! ## `/items` -/

/-- One column of the `/items` query: `low <= price`, and `price <= high` when
there is an upper bound. -/
structure PriceRange where
  label : String
  low : Int
  high : Option Int
  deriving DecidableEq

/-- The ten columns of the `/items` query, in the order of the statement. -/
def priceRanges : List PriceRange :=
  [ ⟨"0-100", 0, some 100⟩,
    ⟨"101-200", 101, some 200⟩,
    ⟨"201-300", 201, some 300⟩,
    ⟨"301-400", 301, some 400⟩,
    ⟨"401-500", 401, some 500⟩,
    ⟨"501-600", 501, some 600⟩,
    ⟨"601-700", 601, some 700⟩,
    ⟨"701-800", 701, some 800⟩,
    ⟨"801-900", 801, some 900⟩,
    ⟨"901-above", 901, none⟩ ]

/-- The condition `price >= low AND price <= high` (or `price >= low` alone). -/
def inRange (b : PriceRange) (price : Decimal) : Bool :=
  (Decimal.ofInt b.low).le price &&
    (match b.high with
     | some h => price.le (Decimal.ofInt h)
     | none => true)

/-- The query of `/items`: for each range, `COUNT(CASE WHEN range THEN 1 END)`
over the rows of the month; the result object, as its list of members. -/
def items (db : Store) (month : Int) : List (String × Nat) :=
  priceRanges.map (fun b =>
    (b.label, sqlCount ((monthRows db month).map (fun r => caseWhen (inRange b r.price) (1 : Nat)))))

/-! ## `/categories` -/

/-- The query of `/categories`: `category, COUNT(category)` for each group of
`GROUP BY category` over the rows of the month.  SQL leaves the order of the
groups open; here they come in the order of `List.dedup`, and no statement below
depends on it. -/
def categories (db : Store) (month : Int) : List (String × Nat) :=
  let rows := monthRows db month
  (rows.map (fun r => r.category)).dedup.map (fun c =>
    (c, sqlCount ((rows.filter (fun r => r.category == c)).map (fun r => some r.category))))

/-! ## `/all-statistics` -/

/-- A JSON value. -/
inductive Json where
  | null
  | num (d : Decimal)
  | str (s : String)
  | arr (elements : List Json)
  | obj (members : List (String × Json))

/-- What `fetch` resolves to: the status of the answer and the outcome of
`.json()` on it (the parsed body, or the parse error it throws). -/
structure Fetched where
  status : Nat
  json : Except String Json

/-- The answer an endpoint sends: a status and a JSON body. -/
structure HttpResponse where
  status : Nat
  body : Json

/-- The answer of the `catch` block of every endpoint,
`response.status(400).json(error.message)`, as `fetch` delivers it. -/
def errorAnswer (message : String) : Fetched := ⟨400, .ok (.str message)⟩

/-- The answer of an endpoint that succeeded with `body`, as `fetch` delivers it. -/
def successAnswer (body : Json) : Fetched := ⟨200, .ok body⟩

/-- The three endpoints `/all-statistics` calls. -/
inductive SubEndpoint where
  | statistics
  | items
  | categories
  deriving DecidableEq

/-- The table `monthsData`. -/
def monthsData : List (Int × String) :=
  [ (1, "January"), (2, "Febrary"), (3, "March"), (4, "April"), (5, "May"),
    (6, "June"), (7, "July"), (8, "August"), (9, "September"), (10, "October"),
    (11, "November"), (12, "December") ]

/-- The members of the combined body; `monthName` is left out when `monthsData`
has no entry, as `JSON.stringify` drops an undefined member. -/
def combinedBody (month : Int) (api1Data api2Data api3Data : Json) : Json :=
  .obj ((match monthsData.lookup month with
          | some name => [("monthName", Json.str name)]
          | none => []) ++
        [("statistics", api1Data), ("itemPriceRange", api2Data), ("categories", api3Data)])

/-- The handler of `/all-statistics`.  `fetch e month` is the outcome of
`await fetch(...)` for endpoint `e`: it throws (`.error`) only when the request
itself cannot be made; an answer with an error status is a normal outcome.  The
three fetches run in order inside one `try`; an exception gives status 400 with
the message. -/
def allStatistics (fetch : SubEndpoint → Int → Except String Fetched) (month : Int) :
    HttpResponse :=
  let attempt : Except String Json := do
    let api1Response ← fetch .statistics month
    let api1Data ← api1Response.json
    let api2Response ← fetch .items month
    let api2Data ← api2Response.json
    let api3Response ← fetch .categories month
    let api3Data ← api3Response.json
    pure (combinedBody month api1Data api2Data api3Data)
  match attempt with
  | .ok body => ⟨200, body⟩
  | .error message => ⟨400, .str message⟩

/-! ## Query parameters and their defaults -/

/-- The query parameters of a `/sales` request; `none` is a parameter that is
absent from the URL. -/
structure SalesQuery where
  month : Option Int
  search_q : Option String
  page : Option Int

/-- The handler of `/sales`:
`const { month = 1, search_q = "", page = 1 } = request.query`, then the query. -/
def salesRequest (priceText : Decimal → String) (db : Store) (q : SalesQuery) : List Record :=
  sales priceText db (q.month.getD 1) (q.search_q.getD "") (q.page.getD 1)

/-- The handler of `/statistics`: `const { month = 1 } = request.query`, then the
query. -/
def statisticsRequest (db : Store) (month : Option Int) : Statistics :=
  statistics db (month.getD 1)

/-- The handler of `/categories`: `const { month = 1 } = request.query`, then the
query. -/
def categoriesRequest (db : Store) (month : Option Int) : List (String × Nat) :=
  categories db (month.getD 1)

/-- The handler of `/all-statistics`: `const { month = 3 } = request.query`, then
the three fetches and the combined body. -/
def allStatisticsRequest (fetch : SubEndpoint → Int → Except String Fetched)
    (month : Option Int) : HttpResponse :=
  allStatistics fetch (month.getD 3)

/-! ## The properties of the specification, in its own words -/

/-- The record has a `dateOfSale` whose month is `month`. -/
def hasMonth (month : Int) (r : Record) : Bool :=
  match r.dateOfSale with
  | some d => decide ((d.month : Int) = month)
  | none => false

/-- The records whose `dateOfSale` month equals `month`. -/
def recordsOfMonth (db : Store) (month : Int) : List Record := db.filter (hasMonth month)

/-- The text `s` occurs in `t` as a substring, the letters A-Z and a-z compared
without regard to case. -/
def containsIgnoreCase (s t : String) : Prop :=
  s.data.map asciiLower <:+: t.data.map asciiLower

instance (s t : String) : Decidable (containsIgnoreCase s t) := by
  unfold containsIgnoreCase; infer_instance

/-- The sum of `price` over the records of the month with `sold = true`. -/
def soldPriceSum (db : Store) (month : Int) : ℚ :=
  (((recordsOfMonth db month).filter (fun r => r.sold)).map (fun r => r.price.toRat)).sum

/-! ## Sample data -/

/-- A date in March 2022. -/
def marchDate : SaleDate := ⟨2022, 3, 14, by decide⟩

/-- A sold record of March 2022 with price 150. -/
def marchRecord (id : Nat) : Record :=
  ⟨id, "Backpack", ⟨150, 0⟩, "Fits a laptop", "men's clothing", "", true, some marchDate⟩

/-- A store of 15 March records, ids 0..14. -/
def marchStore : Store := (List.range 15).map marchRecord

/-- A record of March 2022 that is not sold. -/
def unsoldRecord : Record :=
  ⟨20, "Jacket", ⟨5599, 2⟩, "Cotton", "women's clothing", "", false, some marchDate⟩

/-- A record of March 2022 with price 100.5. -/
def gapRecord : Record :=
  ⟨21, "Cable", ⟨1005, 1⟩, "USB cable", "electronics", "", true, some marchDate⟩

/-- The outcome of the three fetches when `/statistics` and `/items` succeed with
bodies `j1` and `j2` and `/categories` answers with its error status and the
message `message`. -/
def categoriesFailing (j1 j2 : Json) (message : String) :
    SubEndpoint → Int → Except String Fetched
  | .statistics, _ => .ok (successAnswer j1)
  | .items, _ => .ok (successAnswer j2)
  | .categories, _ => .ok (errorAnswer message)

/-- A record with no `dateOfSale`. -/
def undatedRecord : Record :=
  ⟨22, "Ring", ⟨695, 0⟩, "Gold plated", "jewelery", "", true, none⟩

/-- The outcome of the three fetches when the three endpoints succeed with the
bodies `j1`, `j2` and `j3`. -/
def allSucceed (j1 j2 j3 : Json) : SubEndpoint → Int → Except String Fetched
  | .statistics, _ => .ok (successAnswer j1)
  | .items, _ => .ok (successAnswer j2)
  | .categories, _ => .ok (successAnswer j3)

end Backend

/-! # The `Dashboard` component (`Frontend/src/components/Dashboard/index.js`) -/

namespace Dashboard

open Backend (Json)

/-- An entry of the table `monthsData` of the component. -/
structure MonthEntry where
  monthNo : Nat
  monthName : String
  deriving DecidableEq

/-- The table `monthsData` of the component. -/
def monthsData : List MonthEntry :=
  [ ⟨1, "January"⟩, ⟨2, "Febrary"⟩, ⟨3, "March"⟩, ⟨4, "April"⟩, ⟨5, "May"⟩, ⟨6, "June"⟩,
    ⟨7, "July"⟩, ⟨8, "August"⟩, ⟨9, "Octobar"⟩, ⟨11, "November"⟩, ⟨12, "December"⟩ ]

/-- The values of `apiStatusConstant`. -/
inductive ApiStatus where
  | initial
  | success
  | failure
  | inprogress
  deriving DecidableEq

/-- The state of the component.  `selectedMonth` is kept as the text
`String(selectedMonth)`, the form in which the component compares it. -/
structure State where
  selectedMonth : String
  searchText : String
  pageNo : Int
  transactionsData : Json
  apiStatus : ApiStatus
  statistics : Json
  itemPriceRange : Json
  categories : Json
  apiStatusStatistics : ApiStatus

/-- The initial state. -/
def initialState : State :=
  { selectedMonth := toString monthsData[2].monthNo
    searchText := ""
    pageNo := 1
    transactionsData := .arr []
    apiStatus := .initial
    statistics := .obj []
    itemPriceRange := .arr []
    categories := .obj []
    apiStatusStatistics := .initial }

/-- The two requests of the component, each with the outcome of `fetch` followed
by `.json()`: the parsed body, or the error thrown. -/
structure Api where
  sales : String → String → Int → Except String Json
  allStatistics : String → Except String Json

/-- The member access `data.name`: it throws on `null`, and gives `undefined`
(here `null`) when there is no such member. -/
def member (data : Json) (name : String) : Except String Json :=
  match data with
  | .null => .error "Cannot read properties of null"
  | .obj members => .ok ((members.lookup name).getD .null)
  | _ => .ok .null

/-- The function `getTransactionData`, run to its end. -/
def getTransactionData (api : Api) (s : State) : State :=
  match api.sales s.selectedMonth s.searchText s.pageNo with
  | .ok data => { s with transactionsData := data, apiStatus := .success }
  | .error _ => { s with apiStatus := .failure }

/-- The function `getStatisticsData`, run to its end. -/
def getStatisticsData (api : Api) (s : State) : State :=
  let attempt : Except String State := do
    let data ← api.allStatistics s.selectedMonth
    let statistics ← member data "statistics"
    let itemPriceRange ← member data "itemPriceRange"
    let categories ← member data "categories"
    pure { s with statistics := statistics, itemPriceRange := itemPriceRange,
                  categories := categories, apiStatusStatistics := .success }
  match attempt with
  | .ok t => t
  | .error _ => { s with apiStatusStatistics := .failure }

/-- The method `componentDidMount`. -/
def componentDidMount (api : Api) (s : State) : State :=
  getStatisticsData api (getTransactionData api s)

/-- The handler `next`. -/
def next (api : Api) (s : State) : State :=
  if s.pageNo ≥ 1 then getTransactionData api { s with pageNo := s.pageNo + 1 } else s

/-- The handler `prev`. -/
def prev (api : Api) (s : State) : State :=
  if s.pageNo ≥ 2 then getTransactionData api { s with pageNo := s.pageNo - 1 } else s

/-- The handler `changeMonth`; `value` is `event.target.value`. -/
def changeMonth (api : Api) (value : String) (s : State) : State :=
  getStatisticsData api (getTransactionData api { s with selectedMonth := value, pageNo := 1 })

/-- The handler `updateSearch`; `value` is `event.target.value`. -/
def updateSearch (api : Api) (value : String) (s : State) : State :=
  getTransactionData api { s with searchText := value }

/-- The states the component can be in: the initial state, the state after
mounting, and the states the handlers and the two retry buttons lead to. -/
inductive Reachable (api : Api) : State → Prop where
  | initial : Reachable api initialState
  | mount {s : State} : Reachable api s → Reachable api (componentDidMount api s)
  | next {s : State} : Reachable api s → Reachable api (next api s)
  | prev {s : State} : Reachable api s → Reachable api (prev api s)
  | changeMonth {s : State} (value : String) :
      Reachable api s → Reachable api (changeMonth api value s)
  | updateSearch {s : State} (value : String) :
      Reachable api s → Reachable api (updateSearch api value s)
  | retryTransactions {s : State} : Reachable api s → Reachable api (getTransactionData api s)
  | retryStatistics {s : State} : Reachable api s → Reachable api (getStatisticsData api s)

/-- The lookup of `getStatisticsSuccessView`,
`monthsData.find((each) => String(each.monthNo) === String(selectedMonth)).monthName`:
`none` when `find` finds no entry (reading `monthName` then throws). -/
def monthNameOf (selectedMonth : String) : Option String :=
  (monthsData.find? (fun each => toString each.monthNo == selectedMonth)).map
    (fun each => each.monthName)

/-- An interface whose requests always succeed with empty bodies. -/
def sampleApi : Api := ⟨fun _ _ _ => .ok (.arr []), fun _ => .ok (.obj [])⟩

end Dashboard

/-! # The `App` component (`src/App.js`) -/

namespace App

open Backend (Decimal asciiLower)

/-- One element of the fetched transaction list. -/
structure Transaction where
  id : Nat
  title : String
  price : Decimal
  description : String
  category : String
  image : String
  sold : Bool
  dateOfSale : String
  deriving DecidableEq

/-- The method `toLowerCase`, on the letters A-Z; the case mappings of Unicode
outside ASCII are not modelled. -/
def toLowerCase (s : String) : String := String.mk (s.data.map asciiLower)

/-- The method `text.includes(s)`: `s` occurs in `text` as a substring. -/
def includes (text s : String) : Bool := decide (s.data <:+: text.data)

/-- The constant `matchesSearchTerm` of the filter.  `priceText` is
`price.toString()`. -/
def matchesSearchTerm (priceText : Decimal → String) (searchTerm : String)
    (transaction : Transaction) : Bool :=
  includes (toLowerCase transaction.title) (toLowerCase searchTerm)
    || includes transaction.dateOfSale searchTerm
    || includes (priceText transaction.price) searchTerm

/-- The list `filteredTransactions`.  `monthOf` is
`new Date(dateOfSale).toLocaleString('default', { month: 'long' })`, which
depends on the locale and the time zone of the browser. -/
def filteredTransactions (monthOf : String → String) (priceText : Decimal → String)
    (transactions : List Transaction) (selectedMonth searchTerm : String) : List Transaction :=
  transactions.filter (fun transaction =>
    decide (selectedMonth = monthOf transaction.dateOfSale)
      && matchesSearchTerm priceText searchTerm transaction)

/-- The object returned by `calculateStatistics`. -/
structure Stats where
  totalAmount : Decimal
  totalSoldItems : Nat
  totalNotSoldItems : Nat
  deriving DecidableEq

/-- The function `calculateStatistics`, on the list `transactions` and the list
`filtered` of the filtered transactions (a sublist of it). -/
def calculateStatistics (transactions filtered : List Transaction) : Stats :=
  { totalSoldItems := filtered.length
    totalAmount := filtered.foldl (fun acc transaction => acc.add transaction.price)
      (Decimal.ofInt 0)
    totalNotSoldItems := transactions.length - filtered.length }

/-- The constant `itemsPerPage`. -/
def itemsPerPage : Nat := 10

/-- An index of `slice` brought into `0..n`: a negative index counts from the end. -/
def sliceIndex (n : Nat) (k : Int) : Nat :=
  if k < 0 then ((n : Int) + k).toNat else min k.toNat n

/-- The method `slice(start, stop)` of an array. -/
def slice {α : Type} (l : List α) (start stop : Int) : List α :=
  (l.take (sliceIndex l.length stop)).drop (sliceIndex l.length start)

/-- The list `currentTransactions` of the page. -/
def currentTransactions (filtered : List Transaction) (page : Int) : List Transaction :=
  let indexOfLastTransaction := page * itemsPerPage
  let indexOfFirstTransaction := indexOfLastTransaction - itemsPerPage
  slice filtered indexOfFirstTransaction indexOfLastTransaction

/-- The constant `totalPages`, `Math.ceil(length / itemsPerPage)`. -/
def totalPages (filtered : List Transaction) : Int :=
  ((filtered.length + itemsPerPage - 1) / itemsPerPage : Nat)

/-- The update of the button Previous. -/
def previousPage (page : Int) : Int := max (page - 1) 1

/-- The update of the button Next. -/
def nextPage (page totalPages : Int) : Int := min (page + 1) totalPages

/-- The attribute `disabled` of the button Next. -/
def nextDisabled (page totalPages : Int) : Bool := page == totalPages

/-! ## The statistics card and the search, as the page words them -/

/-- The transactions of the selected month with `sold = true`. -/
def soldOfMonth (monthOf : String → String) (transactions : List Transaction)
    (selectedMonth : String) : List Transaction :=
  transactions.filter (fun t => decide (selectedMonth = monthOf t.dateOfSale) && t.sold)

/-- The transactions of the selected month that are not sold. -/
def notSoldOfMonth (monthOf : String → String) (transactions : List Transaction)
    (selectedMonth : String) : List Transaction :=
  transactions.filter (fun t => decide (selectedMonth = monthOf t.dateOfSale) && !t.sold)

/-! ## Sample data -/

/-- The English names of the months, the array `months`. -/
def months : List String :=
  [ "January", "February", "March", "April", "May", "June",
    "July", "August", "September", "October", "November", "December" ]

/-- A sample `monthOf`: an English browser in UTC, on dates written
`YYYY-MM-DD...`; other texts give `Invalid Date`. -/
def englishMonthOf (dateOfSale : String) : String :=
  match ((dateOfSale.data.drop 5).take 2) with
  | [a, b] => (months.get? ((a.toNat - 48) * 10 + (b.toNat - 48) - 1)).getD "Invalid Date"
  | _ => "Invalid Date"

/-- A March transaction that is not sold. -/
def unsoldTransaction : Transaction :=
  ⟨1, "Backpack", ⟨10995, 2⟩, "Fits a laptop", "men's clothing", "", false,
    "2022-03-14T20:29:54+05:30"⟩

end App

namespace Backend

/-! ## Lemmas on the SQL expressions -/

theorem castInteger_strftimeMonth (d : SaleDate) :
    castInteger (strftimeMonth (some d)) = some (d.month : Int) := by
  obtain ⟨y, m, dd, h1, h2⟩ := d
  simp only [strftimeMonth]
  interval_cases m <;> rfl

theorem sqlTrue_monthCondition (month : Int) (r : Record) :
    sqlTrue (monthCondition month r) = hasMonth month r := by
  unfold monthCondition hasMonth
  cases hd : r.dateOfSale with
  | none => rfl
  | some d =>
    rw [castInteger_strftimeMonth]
    simp [sqlEq, sqlTrue]

theorem monthRows_eq (db : Store) (month : Int) : monthRows db month = recordsOfMonth db month := by
  unfold monthRows recordsOfMonth
  congr 1
  funext r
  exact sqlTrue_monthCondition month r

theorem salesWhere_eq (priceText : Decimal → String) (month : Int) (search_q : String)
    (r : Record) :
    salesWhere priceText month search_q r
      = (hasMonth month r && searchCondition priceText search_q r) := by
  unfold salesWhere
  rw [← sqlTrue_monthCondition]
  cases monthCondition month r with
  | none => cases searchCondition priceText search_q r <;> rfl
  | some b => cases b <;> cases searchCondition priceText search_q r <;> rfl

/-! ## `/sales`: month of the returned records -/

theorem salesOffset_of_pos (page : Int) (hp : 1 ≤ page) :
    salesOffset page = (page - 1).toNat * 10 := by
  unfold salesOffset
  omega

theorem salesOffset_succ (page : Int) (hp : 1 ≤ page) :
    salesOffset (page + 1) = salesOffset page + 10 := by
  unfold salesOffset
  omega

theorem take_append_take_drop (l : List Record) :
    l.take 10 ++ (l.drop 10).take 10 = l.take 20 := by
  have h := List.take_add l 10 10
  simpa using h.symm

theorem likeMatch_percent (t : List Char) : likeMatch ['%'] t = true := by
  simp only [likeMatch, if_true, List.any_eq_true]
  exact ⟨[], by simp, rfl⟩

theorem likeMatch_literal (q : List Char) (h1 : '%' ∉ q) (h2 : '_' ∉ q) (u : List Char) :
    likeMatch (q ++ ['%']) u = true ↔ q.map asciiLower <+: u.map asciiLower := by
  induction q generalizing u with
  | nil => simp [likeMatch_percent]
  | cons c q ih =>
    have hc1 : c ≠ '%' := fun h => h1 (by simp [h])
    have hc2 : c ≠ '_' := fun h => h2 (by simp [h])
    have hq1 : '%' ∉ q := fun h => h1 (List.mem_cons_of_mem _ h)
    have hq2 : '_' ∉ q := fun h => h2 (List.mem_cons_of_mem _ h)
    cases u with
    | nil => simp [likeMatch, hc1]
    | cons x xs =>
      have hrec := ih hq1 hq2 xs
      simp only [List.cons_append, likeMatch, hc1, hc2, if_false, decide_False, Bool.false_or,
        Bool.and_eq_true, beq_iff_eq, List.map_cons, List.cons_prefix_cons]
      exact and_congr_right (fun _ => hrec)

theorem infix_map_iff (f : Char → Char) (a t : List Char) :
    a <:+: t.map f ↔ ∃ u, u <:+ t ∧ a <+: u.map f := by
  constructor
  · intro h
    obtain ⟨v, hav, hvt⟩ := List.infix_iff_prefix_suffix.mp h
    obtain ⟨k, hk⟩ : ∃ k, v = (t.map f).drop k := ⟨_, List.suffix_iff_eq_drop.mp hvt⟩
    refine ⟨t.drop k, List.drop_suffix k t, ?_⟩
    rw [List.map_drop, ← hk]
    exact hav
  · rintro ⟨u, hut, hau⟩
    exact List.infix_iff_prefix_suffix.mpr ⟨u.map f, hau, hut.map f⟩

theorem likeContains_iff (s t : String) (h1 : '%' ∉ s.data) (h2 : '_' ∉ s.data) :
    likeContains s t = true ↔ containsIgnoreCase s t := by
  unfold likeContains containsIgnoreCase
  rw [infix_map_iff]
  simp only [likeMatch, if_true, List.any_eq_true, List.mem_tails]
  constructor
  · rintro ⟨u, hu, hm⟩
    exact ⟨u, hu, (likeMatch_literal s.data h1 h2 u).mp hm⟩
  · rintro ⟨u, hu, hp⟩
    exact ⟨u, hu, (likeMatch_literal s.data h1 h2 u).mpr hp⟩

theorem likeContains_empty (t : String) : likeContains "" t = true := by
  have h := (likeContains_iff "" t (by simp) (by simp)).mpr
  apply h
  unfold containsIgnoreCase
  simp

theorem sqlCount_caseWhen {α : Type} (rows : List Record) (c : Record → Bool) (v : Record → α) :
    sqlCount (rows.map (fun r => caseWhen (c r) (v r))) = (rows.filter c).length := by
  induction rows with
  | nil => rfl
  | cons r rs ih =>
    unfold sqlCount at ih ⊢
    simp only [caseWhen] at ih ⊢
    cases hc : c r <;> simp [hc, List.filter_cons, ih]

theorem reduceOption_caseWhen {α : Type} (rows : List Record) (c : Record → Bool)
    (v : Record → α) :
    (rows.map (fun r => caseWhen (c r) (v r))).reduceOption = (rows.filter c).map v := by
  induction rows with
  | nil => rfl
  | cons r rs ih =>
    simp only [caseWhen] at ih ⊢
    cases hc : c r <;> simp [hc, List.filter_cons, ih, List.reduceOption_cons_of_some,
      List.reduceOption_cons_of_none]

theorem Decimal.toRat_add (a b : Decimal) : (a.add b).toRat = a.toRat + b.toRat := by
  unfold Decimal.toRat Decimal.add
  have ha : (10 : ℚ) ^ a.scale ≠ 0 := pow_ne_zero _ (by norm_num)
  have hb : (10 : ℚ) ^ b.scale ≠ 0 := pow_ne_zero _ (by norm_num)
  rw [div_add_div _ _ ha hb, pow_add]
  push_cast
  ring_nf

theorem Decimal.toRat_foldl_add (vs : List Decimal) (v : Decimal) :
    (vs.foldl Decimal.add v).toRat = v.toRat + (vs.map Decimal.toRat).sum := by
  induction vs generalizing v with
  | nil => simp
  | cons w ws ih => simp [ih, Decimal.toRat_add, add_assoc]

/-- C4: for every store and month, `soldItems` is the number of records of the
month with `sold` true, `unSoldItems` the number of the others, and together they
are all the records whose `dateOfSale` month is that month. -/
theorem statistics_counts (db : Store) (month : Int) :
    (statistics db month).soldItems + (statistics db month).unSoldItems
        = (recordsOfMonth db month).length
    ∧ (statistics db month).soldItems
        = ((recordsOfMonth db month).filter (fun r => r.sold)).length
    ∧ (statistics db month).unSoldItems
        = ((recordsOfMonth db month).filter (fun r => !r.sold)).length := by
  have hs : (statistics db month).soldItems
      = ((recordsOfMonth db month).filter (fun r => r.sold)).length := by
    simp only [statistics, monthRows_eq, sqlCount_caseWhen]
    congr 2
    funext r
    cases r.sold <;> rfl
  have hu : (statistics db month).unSoldItems
      = ((recordsOfMonth db month).filter (fun r => !r.sold)).length := by
    simp only [statistics, monthRows_eq, sqlCount_caseWhen]
    congr 2
    funext r
    cases r.sold <;> rfl
  refine ⟨?_, hs, hu⟩
  rw [hs, hu]
  generalize recordsOfMonth db month = rows
  induction rows with
  | nil => rfl
  | cons r rs ih =>
    cases hr : r.sold <;> simp [List.filter_cons, hr] <;> omega

theorem reduceOption_map_some {α : Type} (l : List Record) (v : Record → α) :
    (l.map (fun r => some (v r))).reduceOption = l.map v := by
  induction l with
  | nil => rfl
  | cons a l ih => simp [List.reduceOption_cons_of_some, ih]

theorem statistics_sales_eq (db : Store) (month : Int) :
    (statistics db month).sales
      = sqlSum (((recordsOfMonth db month).filter (fun r => r.sold)).map
          (fun r => some r.price)) := by
  simp only [statistics, monthRows_eq, sqlSum, reduceOption_caseWhen]
  have h : (fun r : Record => r.sold == true) = (fun r => r.sold) := by
    funext r; cases r.sold <;> rfl
  rw [h]
  have h2 : ∀ l : List Record,
      (l.map (fun r => some r.price)).reduceOption = l.map (fun r => r.price) := by
    intro l
    induction l with
    | nil => rfl
    | cons a l ih => simp [List.reduceOption_cons_of_some, ih]
  rw [h2]

theorem inRange_iff (b : PriceRange) (p : Decimal) :
    inRange b p = true ↔
      b.low * 10 ^ p.scale ≤ p.mantissa ∧
        ∀ h, b.high = some h → p.mantissa ≤ h * 10 ^ p.scale := by
  unfold inRange Decimal.le Decimal.ofInt
  cases b.high <;> simp

theorem inRange_unique (p : Decimal) (b b' : PriceRange) (hb : b ∈ priceRanges)
    (hb' : b' ∈ priceRanges) (h : inRange b p = true) (h' : inRange b' p = true) : b = b' := by
  rw [inRange_iff] at h h'
  have hk : (0 : Int) < 10 ^ p.scale := by positivity
  generalize (10 : Int) ^ p.scale = k at h h' hk
  simp only [priceRanges, List.mem_cons, List.mem_singleton, List.not_mem_nil, or_false] at hb hb'
  rcases hb with rfl | rfl | rfl | rfl | rfl | rfl | rfl | rfl | rfl | rfl <;>
    rcases hb' with rfl | rfl | rfl | rfl | rfl | rfl | rfl | rfl | rfl | rfl <;>
    first
      | rfl
      | (exfalso
         simp only [Option.some.injEq, forall_eq', reduceCtorEq, false_implies, implies_true,
           and_true] at h h'
         omega)

theorem label_unique (b b' : PriceRange) (hb : b ∈ priceRanges) (hb' : b' ∈ priceRanges)
    (h : b.label = b'.label) : b = b' := by
  have key : ∀ x ∈ priceRanges, ∀ y ∈ priceRanges, x.label = y.label → x = y := by decide
  exact key b hb b' hb' h

theorem monthRows_insert (xs ys : Store) (month : Int) (r : Record)
    (hm : hasMonth month r = true) :
    monthRows (xs ++ r :: ys) month = monthRows xs month ++ r :: monthRows ys month := by
  simp [monthRows, List.filter_append, List.filter_cons, sqlTrue_monthCondition, hm]

theorem monthRows_append (xs ys : Store) (month : Int) :
    monthRows (xs ++ ys) month = monthRows xs month ++ monthRows ys month := by
  simp [monthRows, List.filter_append]

theorem items_insert (xs ys : Store) (month : Int) (r : Record) (b : PriceRange)
    (hb : b ∈ priceRanges) (hm : hasMonth month r = true) (hp : inRange b r.price = true) :
    items (xs ++ r :: ys) month
      = (items (xs ++ ys) month).map (fun e => if e.1 = b.label then (e.1, e.2 + 1) else e) := by
  unfold items
  rw [List.map_map]
  apply List.map_congr_left
  intro b' hb'
  simp only [Function.comp, sqlCount_caseWhen, monthRows_insert xs ys month r hm,
    monthRows_append, List.filter_append, List.filter_cons, List.length_append]
  by_cases hbb : b' = b
  · subst hbb
    simp [hp]
    omega
  · have hl : ¬ (b'.label = b.label) := fun h => hbb (label_unique b' b hb' hb h)
    have hr : ¬ (inRange b' r.price = true) := fun h => hbb (inRange_unique r.price b' b hb' hb h hp)
    simp [hl, hr]

theorem inRange_of_value_150 (p : Decimal) (h : p.toRat = 150) :
    inRange ⟨"101-200", 101, some 200⟩ p = true := by
  have hk : (0 : Int) < 10 ^ p.scale := by positivity
  have hq : ((10 : ℚ) ^ p.scale) ≠ 0 := pow_ne_zero _ (by norm_num)
  have hm : p.mantissa = 150 * 10 ^ p.scale := by
    unfold Decimal.toRat at h
    rw [div_eq_iff hq] at h
    exact_mod_cast h
  rw [inRange_iff]
  simp only [Option.some.injEq, forall_eq']
  omega

/-- C7: a record of the requested month whose price lies in the inclusive range of
a bucket is counted by `/items` in that bucket and in no other: with the record
in the store, the count of that bucket is one more and every other count is the
same as without it, and its price is in the range of no other bucket.  A record
with price 150 is counted in `101-200` only. -/
theorem items_counts_in_range (xs ys : Store) (month : Int) (r : Record) (b : PriceRange)
    (hb : b ∈ priceRanges) (hm : hasMonth month r = true) (hp : inRange b r.price = true) :
    items (xs ++ r :: ys) month
        = (items (xs ++ ys) month).map (fun e => if e.1 = b.label then (e.1, e.2 + 1) else e)
    ∧ (∀ b' ∈ priceRanges, b' ≠ b → inRange b' r.price = false)
    ∧ (r.price.toRat = 150 →
        items (xs ++ r :: ys) month
          = (items (xs ++ ys) month).map
              (fun e => if e.1 = "101-200" then (e.1, e.2 + 1) else e)) := by
  refine ⟨items_insert xs ys month r b hb hm hp, ?_, ?_⟩
  · intro b' hb' hne
    cases h : inRange b' r.price
    · rfl
    · exact absurd (inRange_unique r.price b' b hb' hb h hp) hne
  · intro h150
    exact items_insert xs ys month r ⟨"101-200", 101, some 200⟩ (by decide) hm
      (inRange_of_value_150 r.price h150)

theorem items_counts_in_range_witness :
    items [marchRecord 0] 3
        = (items [] 3).map (fun e => if e.1 = "101-200" then (e.1, e.2 + 1) else e)
    ∧ items [marchRecord 0] 3
        = [("0-100", 0), ("101-200", 1), ("201-300", 0), ("301-400", 0), ("401-500", 0),
            ("501-600", 0), ("601-700", 0), ("701-800", 0), ("801-900", 0), ("901-above", 0)] :=
  ⟨(items_counts_in_range [] [] 3 (marchRecord 0) ⟨"101-200", 101, some 200⟩ (by decide)
      (by decide) (by decide)).1, by decide⟩

/-- C6, the failing input: a store whose only record is of March and has the
non-negative price 100.5; the record is of the month, yet every one of the ten
counts of `/items` is 0, so that they sum to 0 and not to 1. -/
theorem items_gap_price :
    (Decimal.ofInt 0).le gapRecord.price = true
    ∧ (recordsOfMonth [gapRecord] 3).length = 1
    ∧ items [gapRecord] 3
        = [("0-100", 0), ("101-200", 0), ("201-300", 0), ("301-400", 0), ("401-500", 0),
            ("501-600", 0), ("601-700", 0), ("701-800", 0), ("801-900", 0), ("901-above", 0)]
    ∧ ((items [gapRecord] 3).map Prod.snd).sum = 0 := by
  decide

theorem sum_counts_cons (bs : List PriceRange) (r : Record) (rs : List Record) :
    (bs.map (fun b => ((r :: rs).filter (fun x => inRange b x.price)).length)).sum
      = (bs.filter (fun b => inRange b r.price)).length
        + (bs.map (fun b => (rs.filter (fun x => inRange b x.price)).length)).sum := by
  induction bs with
  | nil => rfl
  | cons b bs ih =>
    cases hb : inRange b r.price <;>
      simp only [List.map_cons, List.sum_cons, List.filter_cons, hb, if_true, if_false,
        List.length_cons, Bool.false_eq_true] at ih ⊢ <;> omega

theorem sum_counts_exchange (bs : List PriceRange) (rows : List Record) :
    (bs.map (fun b => (rows.filter (fun x => inRange b x.price)).length)).sum
      = (rows.map (fun r => (bs.filter (fun b => inRange b r.price)).length)).sum := by
  induction rows with
  | nil => simp
  | cons r rs ih => rw [sum_counts_cons, ih, List.map_cons, List.sum_cons]

theorem items_sum_eq (db : Store) (month : Int) :
    ((items db month).map Prod.snd).sum
      = ((recordsOfMonth db month).map
          (fun r => (priceRanges.filter (fun b => inRange b r.price)).length)).sum := by
  rw [← sum_counts_exchange, ← monthRows_eq]
  unfold items
  simp only [List.map_map, Function.comp_def, sqlCount_caseWhen]

theorem filter_length_eq_one (l : List PriceRange) (P : PriceRange → Bool) (hnd : l.Nodup)
    (b : PriceRange) (hb : b ∈ l) (hP : P b = true) (hu : ∀ b' ∈ l, P b' = true → b' = b) :
    (l.filter P).length = 1 := by
  induction l with
  | nil => simp at hb
  | cons a l ih =>
    have hal : a ∉ l := (List.nodup_cons.mp hnd).1
    have hl : l.Nodup := (List.nodup_cons.mp hnd).2
    by_cases hab : a = b
    · subst hab
      have hnil : l.filter P = [] := by
        rw [List.filter_eq_nil_iff]
        intro x hx hPx
        exact hal (hu x (List.mem_cons_of_mem _ hx) hPx ▸ hx)
      simp [List.filter_cons, hP, hnil]
    · have hPa : ¬ (P a = true) := fun h => hab (hu a (List.mem_cons_self _ _) h)
      have hbl : b ∈ l := by
        rcases List.mem_cons.mp hb with h | h
        · exact absurd h.symm hab
        · exact h
      simp only [List.filter_cons, hPa, if_false]
      exact ih hl hbl (fun x hx => hu x (List.mem_cons_of_mem _ hx))

theorem inRange_covers (p : Decimal) (h0 : 0 ≤ p.mantissa) (hi : p.isInteger = true) :
    ∃ b ∈ priceRanges, inRange b p = true := by
  have hk : (0 : Int) < 10 ^ p.scale := by positivity
  have hdvd : (10 : Int) ^ p.scale ∣ p.mantissa :=
    Int.dvd_of_emod_eq_zero (by simpa [Decimal.isInteger] using hi)
  obtain ⟨n, hn⟩ := hdvd
  have key : ∀ a : Int, (a ≤ n → a * 10 ^ p.scale ≤ p.mantissa) ∧
      (n ≤ a → p.mantissa ≤ a * 10 ^ p.scale) := by
    intro a
    rw [hn]
    constructor <;> intro h <;> nlinarith
  have hn0 : 0 ≤ n := by
    by_contra hneg
    have : n ≤ -1 := by omega
    have := (key (-1)).2 this
    omega
  have hcases : n ≤ 100 ∨ (101 ≤ n ∧ n ≤ 200) ∨ (201 ≤ n ∧ n ≤ 300) ∨ (301 ≤ n ∧ n ≤ 400)
      ∨ (401 ≤ n ∧ n ≤ 500) ∨ (501 ≤ n ∧ n ≤ 600) ∨ (601 ≤ n ∧ n ≤ 700)
      ∨ (701 ≤ n ∧ n ≤ 800) ∨ (801 ≤ n ∧ n ≤ 900) ∨ 901 ≤ n := by omega
  rcases hcases with h | h | h | h | h | h | h | h | h | h
  · exact ⟨⟨"0-100", 0, some 100⟩, by decide,
      (inRange_iff _ _).mpr ⟨(key 0).1 hn0, by simpa using (key 100).2 h⟩⟩
  · exact ⟨⟨"101-200", 101, some 200⟩, by decide,
      (inRange_iff _ _).mpr ⟨(key 101).1 h.1, by simpa using (key 200).2 h.2⟩⟩
  · exact ⟨⟨"201-300", 201, some 300⟩, by decide,
      (inRange_iff _ _).mpr ⟨(key 201).1 h.1, by simpa using (key 300).2 h.2⟩⟩
  · exact ⟨⟨"301-400", 301, some 400⟩, by decide,
      (inRange_iff _ _).mpr ⟨(key 301).1 h.1, by simpa using (key 400).2 h.2⟩⟩
  · exact ⟨⟨"401-500", 401, some 500⟩, by decide,
      (inRange_iff _ _).mpr ⟨(key 401).1 h.1, by simpa using (key 500).2 h.2⟩⟩
  · exact ⟨⟨"501-600", 501, some 600⟩, by decide,
      (inRange_iff _ _).mpr ⟨(key 501).1 h.1, by simpa using (key 600).2 h.2⟩⟩
  · exact ⟨⟨"601-700", 601, some 700⟩, by decide,
      (inRange_iff _ _).mpr ⟨(key 601).1 h.1, by simpa using (key 700).2 h.2⟩⟩
  · exact ⟨⟨"701-800", 701, some 800⟩, by decide,
      (inRange_iff _ _).mpr ⟨(key 701).1 h.1, by simpa using (key 800).2 h.2⟩⟩
  · exact ⟨⟨"801-900", 801, some 900⟩, by decide,
      (inRange_iff _ _).mpr ⟨(key 801).1 h.1, by simpa using (key 900).2 h.2⟩⟩
  · exact ⟨⟨"901-above", 901, none⟩, by decide,
      (inRange_iff _ _).mpr ⟨(key 901).1 h, by simp⟩⟩

/-- On a store whose prices are non-negative whole numbers the ten counts of
`/items` do sum to the number of records of the month. -/
theorem items_sum_of_whole_prices (db : Store) (month : Int)
    (h : ∀ r ∈ db, 0 ≤ r.price.mantissa ∧ r.price.isInteger = true) :
    ((items db month).map Prod.snd).sum = (recordsOfMonth db month).length := by
  rw [items_sum_eq]
  have hone : ∀ r ∈ recordsOfMonth db month,
      (priceRanges.filter (fun b => inRange b r.price)).length = 1 := by
    intro r hr
    have hrdb : r ∈ db := List.mem_of_mem_filter hr
    obtain ⟨b, hb, hp⟩ := inRange_covers r.price (h r hrdb).1 (h r hrdb).2
    exact filter_length_eq_one priceRanges _ (by decide) b hb hp
      (fun b' hb' hp' => inRange_unique r.price b' b hb' hb hp' hp)
  rw [List.map_congr_left hone]
  simp

/-! ## `/categories` -/

theorem sqlCount_map_some {α : Type} (rows : List Record) (v : Record → α) :
    sqlCount (rows.map (fun r => some (v r))) = rows.length := by
  induction rows with
  | nil => rfl
  | cons r rs ih =>
    unfold sqlCount at ih ⊢
    simp [ih]

theorem length_filter_category (rows : List Record) (c : String) :
    (rows.filter (fun r => r.category == c)).length
      = (rows.map (fun r => r.category)).count c := by
  induction rows with
  | nil => rfl
  | cons r rs ih =>
    by_cases h : r.category = c
    · simp [List.filter_cons, h, ih]
    · have h' : ¬ (r.category == c) = true := by simpa using h
      simp [List.filter_cons, h, List.count_cons, ih]

theorem categories_eq (db : Store) (month : Int) :
    categories db month
      = ((recordsOfMonth db month).map (fun r => r.category)).dedup.map
          (fun c => (c, ((recordsOfMonth db month).map (fun r => r.category)).count c)) := by
  unfold categories
  simp only [monthRows_eq, sqlCount_map_some, length_filter_category]

/-- C8: for every store and month, the `items` counts of the pairs returned by
`/categories` sum to the number of records whose `dateOfSale` month is that month. -/
theorem categories_sum (db : Store) (month : Int) :
    ((categories db month).map Prod.snd).sum = (recordsOfMonth db month).length := by
  rw [categories_eq, List.map_map]
  have h := List.sum_map_count_dedup_eq_length ((recordsOfMonth db month).map (fun r => r.category))
  simpa [Function.comp_def] using h

/-- C9: for every store and month, the categories of the pairs returned by
`/categories` are pairwise distinct, they are exactly the category values that
occur among the records of the month, and the `items` of each pair is the number
of records of the month with that category. -/
theorem categories_groups (db : Store) (month : Int) :
    ((categories db month).map Prod.fst).Nodup
    ∧ (∀ c : String, c ∈ (categories db month).map Prod.fst ↔
        ∃ r ∈ recordsOfMonth db month, r.category = c)
    ∧ (∀ e ∈ categories db month,
        e.2 = ((recordsOfMonth db month).filter (fun r => r.category = e.1)).length) := by
  have hfst : (categories db month).map Prod.fst
      = ((recordsOfMonth db month).map (fun r => r.category)).dedup := by
    rw [categories_eq, List.map_map]
    simp [Function.comp_def]
  refine ⟨?_, ?_, ?_⟩
  · rw [hfst]
    exact List.nodup_dedup _
  · intro c
    rw [hfst, List.mem_dedup, List.mem_map]
  · intro e he
    rw [categories_eq, List.mem_map] at he
    obtain ⟨c, _, rfl⟩ := he
    simp only
    rw [← length_filter_category]
    congr 2

/-! ## `/all-statistics` -/

/-- C10, the failing input: `/statistics` and `/items` succeed and `/categories`
answers with status 400 and its error message.  The handler does not look at the
status: it answers 200 with the combined body, in which `categories` is the error
message. -/
theorem allStatistics_categories_failing (j1 j2 : Json) (message : String) :
    allStatistics (categoriesFailing j1 j2 message) 3
      = ⟨200, .obj [("monthName", .str "March"), ("statistics", j1), ("itemPriceRange", j2),
          ("categories", .str message)]⟩ := by
  rfl

/-- The handler does fail as a whole, with status 400 and the message, when a
fetch itself throws. -/
theorem allStatistics_fetch_throws (fetch : SubEndpoint → Int → Except String Fetched)
    (month : Int) (e : SubEndpoint) (message : String)
    (he : fetch e month = .error message)
    (hothers : ∀ e', e' ≠ e → ∃ j, fetch e' month = .ok (successAnswer j)) :
    allStatistics fetch month = ⟨400, .str message⟩ := by
  unfold allStatistics
  cases e with
  | statistics => simp [he, bind, Except.bind]
  | items =>
    obtain ⟨j1, h1⟩ := hothers .statistics (by decide)
    simp [he, h1, successAnswer, bind, Except.bind]
  | categories =>
    obtain ⟨j1, h1⟩ := hothers .statistics (by decide)
    obtain ⟨j2, h2⟩ := hothers .items (by decide)
    simp [he, h1, h2, successAnswer, bind, Except.bind]

/-! ## Records without `dateOfSale` -/

theorem monthRows_undated (xs ys : Store) (month : Int) (r : Record)
    (h : r.dateOfSale = none) :
    monthRows (xs ++ r :: ys) month = monthRows (xs ++ ys) month := by
  simp [monthRows, List.filter_append, List.filter_cons, sqlTrue_monthCondition, hasMonth, h]

theorem salesWhere_undated (priceText : Decimal → String) (month : Int) (search_q : String)
    (r : Record) (h : r.dateOfSale = none) : salesWhere priceText month search_q r = false := by
  rw [salesWhere_eq]
  simp [hasMonth, h]

/-- C12: with `month` absent, `/sales`, `/statistics` and `/categories` answer as
for `month = 1` and `/all-statistics` as for `month = 3`; with `search_q` absent
`/sales` answers as for the empty search text, and with `page` absent as for
page 1. -/
theorem absent_parameters (priceText : Decimal → String) (db : Store)
    (fetch : SubEndpoint → Int → Except String Fetched)
    (month : Option Int) (search_q : Option String) (page : Option Int) :
    salesRequest priceText db ⟨none, search_q, page⟩
        = salesRequest priceText db ⟨some 1, search_q, page⟩
    ∧ salesRequest priceText db ⟨month, none, page⟩
        = salesRequest priceText db ⟨month, some "", page⟩
    ∧ salesRequest priceText db ⟨month, search_q, none⟩
        = salesRequest priceText db ⟨month, search_q, some 1⟩
    ∧ salesRequest priceText db ⟨none, none, none⟩ = sales priceText db 1 "" 1
    ∧ statisticsRequest db none = statisticsRequest db (some 1)
    ∧ statisticsRequest db none = statistics db 1
    ∧ categoriesRequest db none = categoriesRequest db (some 1)
    ∧ categoriesRequest db none = categories db 1
    ∧ allStatisticsRequest fetch none = allStatisticsRequest fetch (some 3)
    ∧ allStatisticsRequest fetch none = allStatistics fetch 3 :=
  ⟨rfl, rfl, rfl, rfl, rfl, rfl, rfl, rfl, rfl, rfl⟩

/-! ## `/all-statistics`: the combined body -/

theorem monthsData_defined (m : Int) (h1 : 1 ≤ m) (h2 : m ≤ 12) :
    ∃ name, monthsData.lookup m = some name := by
  interval_cases m <;> exact ⟨_, rfl⟩

theorem monthsData_injective (m m' : Int) (h1 : 1 ≤ m) (h2 : m ≤ 12) (h1' : 1 ≤ m')
    (h2' : m' ≤ 12) (h : monthsData.lookup m = monthsData.lookup m') : m = m' := by
  interval_cases m <;> interval_cases m' <;> first | rfl | (exfalso; revert h; decide)

theorem allStatistics_of_success (fetch : SubEndpoint → Int → Except String Fetched)
    (m : Int) (j1 j2 j3 : Json)
    (hs : fetch .statistics m = .ok (successAnswer j1))
    (hi : fetch .items m = .ok (successAnswer j2))
    (hc : fetch .categories m = .ok (successAnswer j3)) :
    allStatistics fetch m = ⟨200, combinedBody m j1 j2 j3⟩ := by
  simp [allStatistics, hs, hi, hc, successAnswer, bind, Except.bind, pure, Except.pure]

/-- C13: for a month number `m` in 1..12 and three sub-requests that succeed with
bodies `j1`, `j2`, `j3`, `/all-statistics` answers 200 with exactly the object
`{monthName, statistics, itemPriceRange, categories}` whose last three members
are `j1`, `j2`, `j3` unchanged and whose `monthName` is the entry of `monthsData`
for `m`; `monthsData` has an entry for every `m` in 1..12, and different months
have different entries. -/
theorem allStatistics_combined (fetch : SubEndpoint → Int → Except String Fetched)
    (m : Int) (j1 j2 j3 : Json) (h1 : 1 ≤ m) (h2 : m ≤ 12)
    (hs : fetch .statistics m = .ok (successAnswer j1))
    (hi : fetch .items m = .ok (successAnswer j2))
    (hc : fetch .categories m = .ok (successAnswer j3)) :
    (∃ name, monthsData.lookup m = some name
      ∧ allStatistics fetch m
          = ⟨200, .obj [("monthName", .str name), ("statistics", j1), ("itemPriceRange", j2),
              ("categories", j3)]⟩)
    ∧ (∀ m' : Int, 1 ≤ m' → m' ≤ 12 → monthsData.lookup m' = monthsData.lookup m → m' = m) := by
  constructor
  · obtain ⟨name, hname⟩ := monthsData_defined m h1 h2
    refine ⟨name, hname, ?_⟩
    rw [allStatistics_of_success fetch m j1 j2 j3 hs hi hc]
    simp [combinedBody, hname]
  · intro m' h1' h2' h
    exact monthsData_injective m' m h1' h2' h1 h2 h

theorem allStatistics_combined_witness :
    monthsData.lookup 3 = some "March"
    ∧ ∃ name, monthsData.lookup 3 = some name
      ∧ allStatistics (allSucceed (.str "a") (.str "b") (.str "c")) 3
          = ⟨200, .obj [("monthName", .str name), ("statistics", .str "a"),
              ("itemPriceRange", .str "b"), ("categories", .str "c")]⟩ :=
  ⟨rfl, (allStatistics_combined (allSucceed (.str "a") (.str "b") (.str "c")) 3 (.str "a")
    (.str "b") (.str "c") (by decide) (by decide) rfl rfl rfl).1⟩

end Backend

/-! # The `Dashboard` component: page number and month names -/

namespace Dashboard

theorem getTransactionData_keeps (api : Api) (s : State) :
    (getTransactionData api s).pageNo = s.pageNo
    ∧ (getTransactionData api s).selectedMonth = s.selectedMonth
    ∧ (getTransactionData api s).searchText = s.searchText := by
  unfold getTransactionData
  split <;> exact ⟨rfl, rfl, rfl⟩

theorem getStatisticsData_keeps (api : Api) (s : State) :
    (getStatisticsData api s).pageNo = s.pageNo
    ∧ (getStatisticsData api s).selectedMonth = s.selectedMonth
    ∧ (getStatisticsData api s).searchText = s.searchText := by
  unfold getStatisticsData
  cases h0 : api.allStatistics s.selectedMonth with
  | error e => exact ⟨rfl, rfl, rfl⟩
  | ok data =>
    cases h1 : member data "statistics" with
    | error e => simp [h1, bind, Except.bind]
    | ok a =>
      cases h2 : member data "itemPriceRange" with
      | error e => simp [h1, h2, bind, Except.bind]
      | ok b =>
        cases h3 : member data "categories" with
        | error e => simp [h1, h2, h3, bind, Except.bind]
        | ok c => simp [h1, h2, h3, bind, Except.bind, pure, Except.pure]

theorem reachable_pageNo (api : Api) (s : State) (h : Reachable api s) : 1 ≤ s.pageNo := by
  induction h with
  | initial => decide
  | mount _ ih =>
    unfold componentDidMount
    rw [(getStatisticsData_keeps api _).1, (getTransactionData_keeps api _).1]
    exact ih
  | @next s _ ih =>
    unfold next
    rw [if_pos (show s.pageNo ≥ 1 from ih), (getTransactionData_keeps api _).1]
    show 1 ≤ s.pageNo + 1
    omega
  | @prev s _ ih =>
    unfold prev
    by_cases hp : s.pageNo ≥ 2
    · rw [if_pos hp, (getTransactionData_keeps api _).1]
      show 1 ≤ s.pageNo - 1
      omega
    · rw [if_neg hp]
      exact ih
  | changeMonth value _ ih =>
    unfold changeMonth
    rw [(getStatisticsData_keeps api _).1, (getTransactionData_keeps api _).1]
  | updateSearch value _ ih =>
    unfold updateSearch
    rw [(getTransactionData_keeps api _).1]
    exact ih
  | retryTransactions _ ih =>
    rw [(getTransactionData_keeps api _).1]
    exact ih
  | retryStatistics _ ih =>
    rw [(getStatisticsData_keeps api _).1]
    exact ih

/-- C16: `pageNo >= 1` holds in the initial state, is preserved by `next`, `prev`,
`changeMonth` and `updateSearch`, and so holds in every reachable state; on a
state with `pageNo >= 1`, `next` adds exactly 1 to `pageNo`, `prev` takes exactly
1 off when `pageNo >= 2` and leaves the whole state as it is when `pageNo = 1`,
`changeMonth` sets `pageNo` to 1, and `next` and `prev` change neither
`selectedMonth` nor `searchText`. -/
theorem pageNo_invariant (api : Api) (s : State) (value : String) (h : 1 ≤ s.pageNo) :
    1 ≤ initialState.pageNo
    ∧ 1 ≤ (next api s).pageNo
    ∧ 1 ≤ (prev api s).pageNo
    ∧ 1 ≤ (changeMonth api value s).pageNo
    ∧ 1 ≤ (updateSearch api value s).pageNo
    ∧ (∀ t, Reachable api t → 1 ≤ t.pageNo)
    ∧ (next api s).pageNo = s.pageNo + 1
    ∧ (2 ≤ s.pageNo → (prev api s).pageNo = s.pageNo - 1)
    ∧ (s.pageNo = 1 → prev api s = s)
    ∧ (changeMonth api value s).pageNo = 1
    ∧ (next api s).selectedMonth = s.selectedMonth
    ∧ (next api s).searchText = s.searchText
    ∧ (prev api s).selectedMonth = s.selectedMonth
    ∧ (prev api s).searchText = s.searchText := by
  have hnext : next api s = getTransactionData api { s with pageNo := s.pageNo + 1 } := by
    unfold next
    rw [if_pos (show s.pageNo ≥ 1 from h)]
  have hprev2 : 2 ≤ s.pageNo →
      prev api s = getTransactionData api { s with pageNo := s.pageNo - 1 } := by
    intro h2
    unfold prev
    rw [if_pos (show s.pageNo ≥ 2 from h2)]
  have hprev1 : ¬ (2 ≤ s.pageNo) → prev api s = s := by
    intro h2
    unfold prev
    rw [if_neg (show ¬ s.pageNo ≥ 2 from h2)]
  have hchange : (changeMonth api value s).pageNo = 1 := by
    unfold changeMonth
    rw [(getStatisticsData_keeps api _).1, (getTransactionData_keeps api _).1]
  have hsearch : (updateSearch api value s).pageNo = s.pageNo := by
    unfold updateSearch
    rw [(getTransactionData_keeps api _).1]
  have hnextPage : (next api s).pageNo = s.pageNo + 1 := by
    rw [hnext, (getTransactionData_keeps api _).1]
  have hprevPage : 1 ≤ (prev api s).pageNo := by
    by_cases h2 : 2 ≤ s.pageNo
    · rw [hprev2 h2, (getTransactionData_keeps api _).1]
      show 1 ≤ s.pageNo - 1
      omega
    · rw [hprev1 h2]
      exact h
  refine ⟨by decide, ?_, hprevPage, ?_, ?_, reachable_pageNo api, hnextPage, ?_, ?_, hchange,
    ?_, ?_, ?_, ?_⟩
  · rw [hnextPage]
    omega
  · rw [hchange]
  · rw [hsearch]
    exact h
  · intro h2
    rw [hprev2 h2, (getTransactionData_keeps api _).1]
  · intro h1
    exact hprev1 (by omega)
  · rw [hnext, (getTransactionData_keeps api _).2.1]
  · rw [hnext, (getTransactionData_keeps api _).2.2]
  · by_cases h2 : 2 ≤ s.pageNo
    · rw [hprev2 h2, (getTransactionData_keeps api _).2.1]
    · rw [hprev1 h2]
  · by_cases h2 : 2 ≤ s.pageNo
    · rw [hprev2 h2, (getTransactionData_keeps api _).2.2]
    · rw [hprev1 h2]

theorem pageNo_invariant_witness :
    1 ≤ initialState.pageNo
    ∧ (next sampleApi initialState).pageNo = 1 + 1
    ∧ (prev sampleApi (next sampleApi initialState)).pageNo = 1
    ∧ (initialState.pageNo = 1 → prev sampleApi initialState = initialState) :=
  ⟨by decide, (pageNo_invariant sampleApi initialState "4" (by decide)).2.2.2.2.2.2.1,
    by decide, (pageNo_invariant sampleApi initialState "4" (by decide)).2.2.2.2.2.2.2.2.1⟩

/-- C18, the failing inputs: the table of the component has no entry with
`monthNo = 10`, so that the lookup of `getStatisticsSuccessView` finds nothing
for month 10, and its entry for month 9 is named `Octobar`, while the table of
the backend names month 9 `September` and month 10 `October`. -/
theorem monthsData_mismatch :
    (∀ each ∈ monthsData, each.monthNo ≠ 10)
    ∧ monthNameOf "10" = none
    ∧ Backend.monthsData.lookup 10 = some "October"
    ∧ monthNameOf "9" = some "Octobar"
    ∧ Backend.monthsData.lookup 9 = some "September" := by
  decide

/-- For the ten other months the two tables do agree (on `Febrary` too). -/
theorem monthsData_agree (m : Nat) (h1 : 1 ≤ m) (h2 : m ≤ 12) (h9 : m ≠ 9) (h10 : m ≠ 10) :
    (∃ each ∈ monthsData, each.monthNo = m)
    ∧ monthNameOf (toString m) = Backend.monthsData.lookup (m : Int) := by
  interval_cases m <;> first | contradiction | decide

end Dashboard

/-! # The `App` component: statistics card, search and pages -/

namespace App

open Backend (Decimal)

/-- C14, the failing input: the list holds one March transaction, not sold, the
selected month is March and the search term is empty.  The card shows 1 sold
item, 0 not sold items and the amount 109.95, while the month has no sold
transaction (so the amount of the sold ones is the empty sum) and one that is
not sold. -/
theorem statistics_card_ignores_sold :
    (calculateStatistics [unsoldTransaction]
        (filteredTransactions englishMonthOf Decimal.toText [unsoldTransaction] "March" ""))
      = { totalAmount := ⟨10995, 2⟩, totalSoldItems := 1, totalNotSoldItems := 0 }
    ∧ soldOfMonth englishMonthOf [unsoldTransaction] "March" = []
    ∧ (notSoldOfMonth englishMonthOf [unsoldTransaction] "March").length = 1 := by
  decide

/-- C15, the failing input: the search term `laptop` occurs in the description of
the March transaction `unsoldTransaction` (and not in its title, date or price),
and the filter for March does not keep the transaction. -/
theorem search_ignores_description :
    englishMonthOf unsoldTransaction.dateOfSale = "March"
    ∧ includes unsoldTransaction.description "laptop" = true
    ∧ filteredTransactions englishMonthOf Decimal.toText [unsoldTransaction] "March" "laptop"
        = [] := by
  decide

/-- A term that occurs in the title or in the price as text does keep the
transaction. -/
theorem kept_of_title_or_price (monthOf : String → String) (priceText : Decimal → String)
    (transactions : List Transaction) (selectedMonth s : String) (t : Transaction)
    (ht : t ∈ transactions) (hm : selectedMonth = monthOf t.dateOfSale)
    (h : includes t.title s = true ∨ includes (priceText t.price) s = true) :
    t ∈ filteredTransactions monthOf priceText transactions selectedMonth s := by
  unfold filteredTransactions
  rw [List.mem_filter]
  refine ⟨ht, ?_⟩
  simp only [hm, decide_True, Bool.true_and, matchesSearchTerm, Bool.or_eq_true]
  rcases h with h | h
  · left; left
    unfold includes toLowerCase at *
    simp only [decide_eq_true_eq] at h ⊢
    exact h.map _
  · right
    exact h

/-- C17, the failing input: the filtered list is empty and the page is 1.  Then
`totalPages` is 0, the button Next is not disabled, and its update sets the page
to 0, which is not `>= 1`. -/
theorem next_page_on_empty_list :
    totalPages [] = 0
    ∧ nextDisabled 1 (totalPages []) = false
    ∧ nextPage 1 (totalPages []) = 0
    ∧ ¬ (1 ≤ nextPage 1 (totalPages [])) := by
  decide

theorem previousPage_pos (page : Int) : 1 ≤ previousPage page := by
  unfold previousPage
  omega

theorem nextPage_pos (filtered : List Transaction) (page : Int) (hne : filtered ≠ [])
    (hp : 1 ≤ page) : 1 ≤ nextPage page (totalPages filtered) := by
  have hlen : 0 < filtered.length := List.length_pos.mpr hne
  unfold nextPage totalPages itemsPerPage
  omega

theorem take_min_length (l : List Transaction) (m : Nat) :
    l.take (min m l.length) = l.take m := by
  by_cases h : m ≤ l.length
  · rw [Nat.min_eq_left h]
  · have h' : l.length ≤ m := by omega
    rw [Nat.min_eq_right h', List.take_of_length_le (le_refl _), List.take_of_length_le h']

theorem drop_min_length (l : List Transaction) (m n : Nat) (hl : l.length ≤ n) :
    l.drop (min m n) = l.drop m := by
  by_cases h : m ≤ n
  · rw [Nat.min_eq_left h]
  · have h' : n ≤ m := by omega
    rw [Nat.min_eq_right h', List.drop_of_length_le hl, List.drop_of_length_le (by omega)]

theorem currentTransactions_eq (filtered : List Transaction) (page : Int) (hp : 1 ≤ page) :
    currentTransactions filtered page
      = (filtered.drop ((page - 1).toNat * 10)).take 10 := by
  have h1 : ¬ (page * 10 < 0) := by omega
  have h2 : ¬ (page * 10 - 10 < 0) := by omega
  have h3 : (page * 10).toNat = (page - 1).toNat * 10 + 10 := by omega
  have h4 : (page * 10 - 10).toNat = (page - 1).toNat * 10 := by omega
  simp only [currentTransactions, slice, sliceIndex, itemsPerPage, Nat.cast_ofNat, h1, h2,
    if_false, h3, h4]
  rw [take_min_length, List.take_drop]
  apply drop_min_length
  rw [List.length_take]
  omega

theorem flatMap_pages (l : List Transaction) (n : Nat) :
    (List.range n).flatMap (fun i => (l.drop (i * 10)).take 10) = l.take (n * 10) := by
  induction n with
  | zero => simp
  | succ n ih =>
    rw [List.range_succ, List.flatMap_append, ih, Nat.succ_mul, List.take_add]
    simp

/-- On a filtered list that is not empty the page stays `>= 1` under Previous and
Next; for every list and page `p >= 1` the slice shown is the elements at
positions `(p-1)*10 .. p*10-1`, and the slices of the pages `1..totalPages` make
up the whole filtered list. -/
theorem pages_of_nonempty_list (filtered : List Transaction) (page : Int) (hp : 1 ≤ page) :
    1 ≤ previousPage page
    ∧ (filtered ≠ [] → 1 ≤ nextPage page (totalPages filtered))
    ∧ currentTransactions filtered page = (filtered.drop ((page - 1).toNat * 10)).take 10
    ∧ (List.range (totalPages filtered).toNat).flatMap
          (fun i => currentTransactions filtered ((i : Int) + 1))
        = filtered := by
  refine ⟨previousPage_pos page, fun hne => nextPage_pos filtered page hne hp,
    currentTransactions_eq filtered page hp, ?_⟩
  have hcur : (fun i : Nat => currentTransactions filtered ((i : Int) + 1))
      = (fun i : Nat => (filtered.drop (i * 10)).take 10) := by
    funext i
    rw [currentTransactions_eq filtered _ (by omega)]
    congr 2
    omega
  rw [hcur, flatMap_pages]
  apply List.take_of_length_le
  unfold totalPages itemsPerPage
  omega

end App
